import Mathlib

/- Shallow embedding of the limbo simulator's interaction-plan module
   (simulator/generation/plan.rs), together with the pieces of its data
   model (values, tables, queries, properties) that the plan logic
   depends on.  Strings are modelled as lists of characters so that the
   textual rendering and the plan-diff algorithm can be reasoned about
   character by character. -/

namespace Sim

abbrev Chars := List Char

/-- SQL scalar values (the simulator's `SimValue`).  Modelled from the spec:
the value type lives in `model/table.rs`, which is not under `src/`; §3 of
the spec describes a tagged union of integer, real, text, blob and null.
Real and blob play no role in the plan logic, so integer, text and null
suffice for this development. -/
inductive SimValue
  | integer (i : Int)
  | text (s : Chars)
  | null
  deriving DecidableEq

/-- Table column.  Modelled from the spec: §3 (name, declared type). -/
structure Column where
  name : Chars
  ctype : Chars
  deriving DecidableEq

/-- Shadow table: name, ordered column list, ordered row list.  Modelled
from the spec: §3 `Table`. -/
structure Table where
  name : Chars
  columns : List Column
  rows : List (List SimValue)
  deriving DecidableEq

/-- Predicate AST.  Modelled from the spec: §3 `Predicate` — "a small
expression AST sufficient for equality, comparison, boolean combinators,
and a literal `true`". -/
inductive Predicate
  | tru
  | fls
  | eq (col : Chars) (v : SimValue)
  | lt (col : Chars) (v : SimValue)
  | notP (p : Predicate)
  | andP (p q : Predicate)
  | orP (p q : Predicate)
  deriving DecidableEq

/-- Result column of a SELECT (source: `ResultColumn::Star` and
`ResultColumn::Expr(..)` as used in plan.rs lines 329, 359, 367). -/
inductive ResultColumn
  | star
  | expr (p : Predicate)
  deriving DecidableEq

/-- Distinctness flag of a SELECT (source: `Distinctness::All` used in
plan.rs). -/
inductive Distinctness
  | all
  | distinct
  deriving DecidableEq

structure Create where
  table : Table
  deriving DecidableEq

structure Select where
  table : Chars
  result_columns : List ResultColumn
  predicate : Predicate
  distinct : Distinctness
  limit : Option Nat
  deriving DecidableEq

structure Insert where
  table : Chars
  values : List (List SimValue)
  deriving DecidableEq

structure Delete where
  table : Chars
  predicate : Predicate
  deriving DecidableEq

structure Update where
  table : Chars
  set_cols : List (Chars × SimValue)
  predicate : Predicate
  deriving DecidableEq

structure Drop where
  table : Chars
  deriving DecidableEq

structure CreateIndex where
  table : Chars
  index_name : Chars
  columns : List Chars
  deriving DecidableEq

/-- Query AST (spec §3; the variants are exactly those matched on in
plan.rs lines 379-400 and 435-454). -/
inductive Query
  | create (c : Create)
  | select (s : Select)
  | insert (i : Insert)
  | delete (d : Delete)
  | update (u : Update)
  | drop (d : Drop)
  | createIndex (ci : CreateIndex)
  deriving DecidableEq

/-- Simulator options (spec §3: `opts` with `max_interactions` and
`disable_reopen_database`; both fields are read in plan.rs). -/
structure Options where
  max_interactions : Nat
  disable_reopen_database : Bool
  deriving DecidableEq

/-- Connection slot.  Modelled from the spec: `SimConnection` lives in
`runner/env.rs`, not under `src/`; §3 says each element is one of
`{Connected(handle), Disconnected}`.  The handle is an opaque id. -/
inductive SimConnection
  | limboConnection (id : Nat)
  | disconnected
  deriving DecidableEq

def SimConnection.is_connected : SimConnection → Bool
  | .limboConnection _ => true
  | .disconnected => false

/-- Mutable simulation environment (spec §3 `SimulatorEnv`).  The rng is
not a field here: randomness is supplied to the generator through
explicit oracles.  The database handle is an opaque id that changes when
the database is reopened. -/
structure SimulatorEnv where
  tables : List Table
  connections : List SimConnection
  db : Nat
  db_path : Chars
  opts : Options
  deriving DecidableEq

/-- Predicate evaluation over one row, three-valued (spec §4.1: NULL
comparisons yield NULL, which is treated as false for filtering). -/
def evalPred (cols : List Chars) (row : List SimValue) : Predicate → Option Bool
  | .tru => some true
  | .fls => some false
  | .eq c v =>
    match (cols.indexOf c) < cols.length, row.get? (cols.indexOf c) with
    | _, some x =>
      if x = SimValue.null ∨ v = SimValue.null then none else some (x == v)
    | _, none => none
  | .lt c v =>
    match row.get? (cols.indexOf c) with
    | some (SimValue.integer a) =>
      match v with
      | SimValue.integer b => some (a < b)
      | _ => none
    | _ => none
  | .notP p =>
    match evalPred cols row p with
    | some b => some (!b)
    | none => none
  | .andP p q =>
    match evalPred cols row p, evalPred cols row q with
    | some a, some b => some (a && b)
    | _, _ => none
  | .orP p q =>
    match evalPred cols row p, evalPred cols row q with
    | some a, some b => some (a || b)
    | _, _ => none

def boolToVal : Option Bool → SimValue
  | some true => SimValue.integer 1
  | some false => SimValue.integer 0
  | none => SimValue.null

/-- Row filter used by Delete/Update/Select shadows: keep exactly the rows
on which the predicate evaluates to true. -/
def rowMatches (t : Table) (p : Predicate) (row : List SimValue) : Bool :=
  evalPred (t.columns.map Column.name) row p == some true

/-- Shadow of Create.  Modelled from the spec: §4.1 — "if a table with the
same name already exists, do nothing; otherwise append to `env.tables`".
(The per-query shadow implementations live in `model/query/*.rs`, outside
`src/`.) -/
def applyCreate (c : Create) (ts : List Table) : List Table :=
  if ts.any (fun t => t.name == c.table.name) then ts else ts ++ [c.table]

/-- Shadow of Insert.  Modelled from the spec: §4.1 — "append the
specified rows to the target table's row list". -/
def applyInsert (i : Insert) (ts : List Table) : List Table :=
  ts.map (fun t => if t.name == i.table then { t with rows := t.rows ++ i.values } else t)

/-- Shadow of Delete.  Modelled from the spec: §4.1 — "retain only rows
where the predicate evaluates non-true". -/
def applyDelete (d : Delete) (ts : List Table) : List Table :=
  ts.map (fun t =>
    if t.name == d.table then { t with rows := t.rows.filter (fun r => !(rowMatches t d.predicate r)) } else t)

/-- Shadow of Update.  Modelled from the spec: §4.1 — "for each row where
predicate holds, assign the specified column expressions". -/
def applyUpdate (u : Update) (ts : List Table) : List Table :=
  ts.map (fun t =>
    if t.name == u.table then
      { t with rows := t.rows.map (fun r =>
          if rowMatches t u.predicate r then
            u.set_cols.foldl (fun r cv =>
              match (t.columns.map Column.name).indexOf? cv.1 with
              | some k => r.set k cv.2
              | none => r) r
          else r) }
    else t)

/-- Shadow of Drop.  Modelled from the spec: §4.1 — "remove the named
table from `env.tables`; no error if absent". -/
def applyDrop (d : Drop) (ts : List Table) : List Table :=
  ts.filter (fun t => !(t.name == d.table))

/-- Rows predicted by a Select.  Modelled from the spec: §4.1 — filter by
the predicate, project result columns (STAR gives the whole row in schema
order, Expr gives the evaluated scalar), deduplicate under Distinct,
truncate by the limit. -/
def selectRows (s : Select) (ts : List Table) : List (List SimValue) :=
  match ts.find? (fun t => t.name == s.table) with
  | none => []
  | some t =>
    let rows := t.rows.filter (rowMatches t s.predicate)
    let rows := rows.map (fun r =>
      (s.result_columns.map (fun rc =>
        match rc with
        | ResultColumn.star => r
        | ResultColumn.expr p => [boolToVal (evalPred (t.columns.map Column.name) r p)])).flatten)
    let rows := match s.distinct with
      | Distinctness.all => rows
      | Distinctness.distinct => rows.dedup
    match s.limit with
    | none => rows
    | some n => rows.take n

/-- Environment effect of `Query::shadow` (spec §4.1; CreateIndex and
Select leave the catalog unchanged). -/
def Query.shadowEnv : Query → SimulatorEnv → SimulatorEnv
  | .create c, env => { env with tables := applyCreate c env.tables }
  | .insert i, env => { env with tables := applyInsert i env.tables }
  | .delete d, env => { env with tables := applyDelete d env.tables }
  | .update u, env => { env with tables := applyUpdate u env.tables }
  | .drop d, env => { env with tables := applyDrop d env.tables }
  | .select _, env => env
  | .createIndex _, env => env

/-- Rows returned by `Query::shadow` (only Select predicts rows). -/
def Query.shadowRows : Query → SimulatorEnv → List (List SimValue)
  | .select s, env => selectRows s env.tables
  | _, _ => []

/-- Assertions carry a message and (in the source) a heap-allocated
closure `fn(stack, env) -> Result<bool>`; the closure is not part of the
plan structure reasoned about here, so only the message is kept
(plan.rs lines 260-263). -/
structure Assertion where
  message : Chars
  deriving DecidableEq

/-- Fault enumeration (plan.rs lines 273-277). -/
inductive Fault
  | disconnect
  | reopenDatabase
  deriving DecidableEq

/-- One atomic step of a plan (plan.rs lines 235-241). -/
inductive Interaction
  | query (q : Query)
  | assumption (a : Assertion)
  | assertion (a : Assertion)
  | fault (f : Fault)
  deriving DecidableEq

/-- The closed enumeration of composite properties, with the fields read
by `Interactions::shadow` in plan.rs lines 292-376. -/
inductive Property
  | insertValuesSelect (insert : Insert) (row_index : Nat) (queries : List Query) (select : Select)
  | doubleCreateFailure (create : Create) (queries : List Query)
  | selectLimit (select : Select)
  | deleteSelect (table : Chars) (predicate : Predicate) (queries : List Query)
  | dropSelect (table : Chars) (queries : List Query) (select : Select)
  | selectSelectOptimizer (table : Chars) (predicate : Predicate)
  deriving DecidableEq

/-- Property names.  Modelled from the spec: `Property::name` lives in
`generation/property.rs`, outside `src/`; §4.3 lists the names. -/
def Property.name : Property → Chars
  | .insertValuesSelect _ _ _ _ => "InsertValuesSelect".toList
  | .doubleCreateFailure _ _ => "DoubleCreateFailure".toList
  | .selectLimit _ => "SelectLimit".toList
  | .deleteSelect _ _ _ => "DeleteSelect".toList
  | .dropSelect _ _ _ => "DropSelect".toList
  | .selectSelectOptimizer _ _ => "SelectSelectOptimizer".toList

/-- The delete constructed by the DeleteSelect property (plan.rs lines
322-325 build exactly this query inside the shadow). -/
def deleteOfDeleteSelect (table : Chars) (predicate : Predicate) : Delete :=
  { table := table, predicate := predicate }

/-- The select constructed by the DeleteSelect property (plan.rs lines
327-333). -/
def selectOfDeleteSelect (table : Chars) (predicate : Predicate) : Select :=
  { table := table, result_columns := [ResultColumn.star], predicate := predicate,
    distinct := Distinctness.all, limit := none }

/-- First select of SelectSelectOptimizer (plan.rs lines 357-363). -/
def select1OfOptimizer (table : Chars) (predicate : Predicate) : Select :=
  { table := table, result_columns := [ResultColumn.expr predicate], predicate := Predicate.tru,
    distinct := Distinctness.all, limit := none }

/-- Second select of SelectSelectOptimizer (plan.rs lines 365-371). -/
def select2OfOptimizer (table : Chars) (predicate : Predicate) : Select :=
  { table := table, result_columns := [ResultColumn.star], predicate := predicate,
    distinct := Distinctness.all, limit := none }

/-- Expansion of a property into its ordered interaction list.  Modelled
from the spec: `Property::interactions` lives in `generation/property.rs`,
outside `src/`.  Spec §4.3: each property expands to an ordered list that
sandwiches its setup queries between assumptions and assertions —
InsertValuesSelect inserts a row, runs the filler queries, selects the
row back and asserts; DoubleCreateFailure creates, runs fillers, creates
again and asserts; SelectLimit selects with a limit and asserts;
DeleteSelect deletes by a predicate, runs fillers, re-selects by the same
predicate and asserts; DropSelect drops, runs fillers, selects and
asserts; SelectSelectOptimizer issues the two equivalent selects and
asserts. -/
def Property.interactions : Property → List Interaction
  | .insertValuesSelect insert _ queries select =>
    [Interaction.assumption { message := "table exists".toList },
     Interaction.query (Query.insert insert)]
    ++ queries.map Interaction.query
    ++ [Interaction.query (Query.select select),
        Interaction.assertion { message := "selected row matches inserted row".toList }]
  | .doubleCreateFailure create queries =>
    [Interaction.assumption { message := "table does not exist".toList },
     Interaction.query (Query.create create)]
    ++ queries.map Interaction.query
    ++ [Interaction.query (Query.create create),
        Interaction.assertion { message := "creating the same table twice fails".toList }]
  | .selectLimit select =>
    [Interaction.assumption { message := "table exists".toList },
     Interaction.query (Query.select select),
     Interaction.assertion { message := "select respects the limit".toList }]
  | .deleteSelect table predicate queries =>
    [Interaction.assumption { message := "table exists".toList },
     Interaction.query (Query.delete (deleteOfDeleteSelect table predicate))]
    ++ queries.map Interaction.query
    ++ [Interaction.query (Query.select (selectOfDeleteSelect table predicate)),
        Interaction.assertion { message := "select after delete returns no rows".toList }]
  | .dropSelect table queries select =>
    [Interaction.assumption { message := "table exists".toList },
     Interaction.query (Query.drop { table := table })]
    ++ queries.map Interaction.query
    ++ [Interaction.query (Query.select select),
        Interaction.assertion { message := "select after drop returns an error".toList }]
  | .selectSelectOptimizer table predicate =>
    [Interaction.query (Query.select (select1OfOptimizer table predicate)),
     Interaction.query (Query.select (select2OfOptimizer table predicate)),
     Interaction.assertion { message := "both selects return the same amount of results".toList }]

/-- Top-level plan item (plan.rs lines 107-112). -/
inductive Interactions
  | property (p : Property)
  | query (q : Query)
  | fault (f : Fault)
  deriving DecidableEq

/-- Expansion of a plan item (plan.rs lines 123-129). -/
def Interactions.interactions : Interactions → List Interaction
  | .property p => p.interactions
  | .query q => [Interaction.query q]
  | .fault f => [Interaction.fault f]

/-- An interaction plan (plan.rs lines 32-35). -/
structure InteractionPlan where
  plan : List Interactions
  deriving DecidableEq

/-- Environment effect of `Interaction::shadow` (plan.rs lines 502-508):
queries shadow the environment, assumptions/assertions/faults leave it
unchanged. -/
def Interaction.shadowEnv : Interaction → SimulatorEnv → SimulatorEnv
  | .query q, env => q.shadowEnv env
  | .assumption _, env => env
  | .assertion _, env => env
  | .fault _, env => env

/-- The loop at plan.rs lines 377-406: iterate the property's expanded
interactions and apply the shadow of every query among them. -/
def shadowExpansionLoop (p : Property) (env : SimulatorEnv) : SimulatorEnv :=
  p.interactions.foldl (fun e i =>
    match i with
    | Interaction.query q => q.shadowEnv e
    | _ => e) env

/-- Environment effect of `Interactions::shadow` (plan.rs lines 289-413),
translated arm by arm.  Each property arm first applies the
property-specific shadows written out at lines 292-376 and then runs the
expansion loop of lines 377-406; the DoubleCreateFailure arm returns
early (skipping the expansion loop as well) when the table already
exists. -/
def Interactions.shadow : Interactions → SimulatorEnv → SimulatorEnv
  | .property p, env =>
    match p with
    | Property.insertValuesSelect insert _ queries select =>
      let env := (Query.insert insert).shadowEnv env
      let env := queries.foldl (fun e q => q.shadowEnv e) env
      let env := (Query.select select).shadowEnv env
      shadowExpansionLoop p env
    | Property.doubleCreateFailure create queries =>
      if env.tables.any (fun t => t.name == create.table.name) then env
      else
        let env := (Query.create create).shadowEnv env
        let env := queries.foldl (fun e q => q.shadowEnv e) env
        shadowExpansionLoop p env
    | Property.selectLimit select =>
      let env := (Query.select select).shadowEnv env
      shadowExpansionLoop p env
    | Property.deleteSelect table predicate queries =>
      let env := (Query.delete (deleteOfDeleteSelect table predicate)).shadowEnv env
      let env := queries.foldl (fun e q => q.shadowEnv e) env
      let env := (Query.select (selectOfDeleteSelect table predicate)).shadowEnv env
      shadowExpansionLoop p env
    | Property.dropSelect table queries select =>
      let env := (Query.drop { table := table }).shadowEnv env
      let env := queries.foldl (fun e q => q.shadowEnv e) env
      let env := (Query.select select).shadowEnv env
      shadowExpansionLoop p env
    | Property.selectSelectOptimizer table predicate =>
      let env := (Query.select (select1OfOptimizer table predicate)).shadowEnv env
      let env := (Query.select (select2OfOptimizer table predicate)).shadowEnv env
      shadowExpansionLoop p env
  | .query q, env => q.shadowEnv env
  | .fault _, env => env

/-- The fold the spec demands: apply `Interaction::shadow` once for each
interaction of the expanded list, in order (spec design note §9,
"shadow applies each query exactly once in the order of
`property.interactions()`"). -/
def foldShadow (l : List Interaction) (env : SimulatorEnv) : SimulatorEnv :=
  l.foldl (fun e i => i.shadowEnv e) env

/- Concrete inputs exhibiting the double application of property shadows. -/

def tableT : Table :=
  { name := "t".toList,
    columns := [{ name := "a".toList, ctype := "INTEGER".toList }],
    rows := [] }

def insertT : Insert := { table := "t".toList, values := [[SimValue.integer 1]] }

def selectT : Select :=
  { table := "t".toList, result_columns := [ResultColumn.star],
    predicate := Predicate.tru, distinct := Distinctness.all, limit := none }

def propIVS : Property := Property.insertValuesSelect insertT 0 [] selectT

def envT : SimulatorEnv :=
  { tables := [tableT], connections := [], db := 0, db_path := [],
    opts := { max_interactions := 10, disable_reopen_database := false } }

/-- C1: `Interactions::shadow` is claimed to apply the shadow of each
query of a property exactly once, in the order of
`property.interactions()`, hence to coincide with folding
`Interaction::shadow` over the expanded interaction list.  The code
instead applies the property-specific shadows of plan.rs lines 292-376
and then shadows every query of the expansion again in the loop of lines
377-406: on an `InsertValuesSelect` property inserting one row into an
existing one-column table, the code leaves the table with the row
duplicated while the specified fold inserts it once. -/
theorem shadow_double_applies_insert :
    Interactions.shadow (Interactions.property propIVS) envT ≠
      foldShadow propIVS.interactions envT ∧
    (Interactions.shadow (Interactions.property propIVS) envT).tables.map Table.rows =
      [[[SimValue.integer 1], [SimValue.integer 1]]] ∧
    (foldShadow propIVS.interactions envT).tables.map Table.rows =
      [[[SimValue.integer 1]]] := by
  refine ⟨?_, ?_, ?_⟩ <;> decide

/- Stats (plan.rs lines 208-217 and 421-469). -/

/-- Per-kind query counters (plan.rs lines 208-217). -/
structure InteractionStats where
  read_count : Nat
  write_count : Nat
  delete_count : Nat
  update_count : Nat
  create_count : Nat
  create_index_count : Nat
  drop_count : Nat
  deriving DecidableEq

def zeroStats : InteractionStats :=
  { read_count := 0, write_count := 0, delete_count := 0, update_count := 0,
    create_count := 0, create_index_count := 0, drop_count := 0 }

/-- One counter increment, matching the match arms at plan.rs lines
435-443 and 447-454: Select bumps read, Insert write, Delete delete,
Create create, Drop drop, Update update, CreateIndex create_index. -/
def bumpQuery (s : InteractionStats) : Query → InteractionStats
  | .select _ => { s with read_count := s.read_count + 1 }
  | .insert _ => { s with write_count := s.write_count + 1 }
  | .delete _ => { s with delete_count := s.delete_count + 1 }
  | .create _ => { s with create_count := s.create_count + 1 }
  | .drop _ => { s with drop_count := s.drop_count + 1 }
  | .update _ => { s with update_count := s.update_count + 1 }
  | .createIndex _ => { s with create_index_count := s.create_index_count + 1 }

/-- Counter accumulation over one plan item (the body of the for loop at
plan.rs lines 430-457): a property contributes the queries of its
expanded interactions, a top-level query contributes itself, a fault
contributes nothing. -/
def statsItem (s : InteractionStats) : Interactions → InteractionStats
  | .property p =>
    p.interactions.foldl (fun s i =>
      match i with
      | Interaction.query q => bumpQuery s q
      | _ => s) s
  | .query q => bumpQuery s q
  | .fault _ => s

/-- `InteractionPlan::stats` (plan.rs lines 421-469). -/
def InteractionPlan.stats (p : InteractionPlan) : InteractionStats :=
  p.plan.foldl statsItem zeroStats

/- Specification-side counting for C5. -/

/-- Componentwise sum of two stats records. -/
def addStats (a b : InteractionStats) : InteractionStats :=
  { read_count := a.read_count + b.read_count,
    write_count := a.write_count + b.write_count,
    delete_count := a.delete_count + b.delete_count,
    update_count := a.update_count + b.update_count,
    create_count := a.create_count + b.create_count,
    create_index_count := a.create_index_count + b.create_index_count,
    drop_count := a.drop_count + b.drop_count }

/-- Kind indicator of a single interaction, following the claim: a query
counts one in the counter of its kind, while faults, assumptions and
assertions count zero everywhere. -/
def interactionCounts : Interaction → InteractionStats
  | .query q => bumpQuery zeroStats q
  | .assumption _ => zeroStats
  | .assertion _ => zeroStats
  | .fault _ => zeroStats

/-- Sum of the kind indicators over a list of interactions. -/
def sumCounts (l : List Interaction) : InteractionStats :=
  l.foldr (fun i acc => addStats (interactionCounts i) acc) zeroStats

theorem addStats_zero_right (a : InteractionStats) : addStats a zeroStats = a := by
  simp [addStats, zeroStats]

theorem addStats_zero_left (a : InteractionStats) : addStats zeroStats a = a := by
  simp [addStats, zeroStats]

theorem addStats_assoc (a b c : InteractionStats) :
    addStats (addStats a b) c = addStats a (addStats b c) := by
  simp [addStats, Nat.add_assoc]

theorem bumpQuery_eq_add (s : InteractionStats) (q : Query) :
    bumpQuery s q = addStats s (bumpQuery zeroStats q) := by
  cases q <;> simp [bumpQuery, addStats, zeroStats]

theorem sumCounts_cons (i : Interaction) (l : List Interaction) :
    sumCounts (i :: l) = addStats (interactionCounts i) (sumCounts l) := rfl

theorem sumCounts_append (l₁ l₂ : List Interaction) :
    sumCounts (l₁ ++ l₂) = addStats (sumCounts l₁) (sumCounts l₂) := by
  induction l₁ with
  | nil => simp [sumCounts, addStats_zero_left]
  | cons i l ih => simp [sumCounts_cons, ih, addStats_assoc]

theorem foldl_bump_eq_add (l : List Interaction) (s : InteractionStats) :
    l.foldl (fun s i =>
      match i with
      | Interaction.query q => bumpQuery s q
      | _ => s) s = addStats s (sumCounts l) := by
  induction l generalizing s with
  | nil => simp [sumCounts, addStats_zero_right]
  | cons i l ih =>
    cases i with
    | query q =>
      simp only [List.foldl_cons, ih, sumCounts_cons, interactionCounts]
      rw [bumpQuery_eq_add, addStats_assoc]
    | assumption a =>
      simp only [List.foldl_cons, ih, sumCounts_cons, interactionCounts, addStats_zero_left]
    | assertion a =>
      simp only [List.foldl_cons, ih, sumCounts_cons, interactionCounts, addStats_zero_left]
    | fault f =>
      simp only [List.foldl_cons, ih, sumCounts_cons, interactionCounts, addStats_zero_left]

theorem statsItem_eq_add (s : InteractionStats) (x : Interactions) :
    statsItem s x = addStats s (sumCounts x.interactions) := by
  cases x with
  | property p => simpa [statsItem, Interactions.interactions] using foldl_bump_eq_add p.interactions s
  | query q =>
    have h1 : sumCounts [Interaction.query q] = bumpQuery zeroStats q := by
      simp [sumCounts, interactionCounts, addStats_zero_right]
    simp only [statsItem, Interactions.interactions, h1]
    exact bumpQuery_eq_add s q
  | fault f =>
    simp [statsItem, Interactions.interactions, sumCounts, interactionCounts, addStats_zero_right]

/-- C5: `plan.stats()` counts, for each query kind, exactly the queries of
that kind appearing in the plan — both the top-level queries and the ones
nested inside the properties' expanded interaction lists — while faults,
assumptions and assertions contribute zero to every counter.  The
right-hand side is the sum of the per-interaction kind indicators over
the fully expanded plan. -/
theorem stats_counts_queries (p : InteractionPlan) :
    p.stats = sumCounts (p.plan.map Interactions.interactions).flatten := by
  suffices h : ∀ (items : List Interactions) (s : InteractionStats),
      items.foldl statsItem s = addStats s (sumCounts (items.map Interactions.interactions).flatten) by
    have := h p.plan zeroStats
    simpa [InteractionPlan.stats, addStats_zero_left] using this
  intro items
  induction items with
  | nil => intro s; simp [sumCounts, addStats_zero_right]
  | cons x rest ih =>
    intro s
    simp only [List.foldl_cons, ih, statsItem_eq_add, List.map_cons, List.flatten_cons,
      sumCounts_append, addStats_assoc]

/- Textual rendering (plan.rs lines 172-206, 243-252, 279-286). -/

/-- SQL text of a value.  Modelled from the spec: the Display
implementations of the query AST live in `model/query/*.rs`, outside
`src/`; values print as SQL literals. -/
def valueChars : SimValue → Chars
  | .integer i => (toString i).toList
  | .text s => '\x27' :: (s ++ ['\x27'])
  | .null => "NULL".toList

/-- SQL text of a predicate.  Modelled from the spec: see `valueChars`. -/
def predChars : Predicate → Chars
  | .tru => "TRUE".toList
  | .fls => "FALSE".toList
  | .eq c v => c ++ " = ".toList ++ valueChars v
  | .lt c v => c ++ " < ".toList ++ valueChars v
  | .notP p => "NOT (".toList ++ predChars p ++ ")".toList
  | .andP p q => "(".toList ++ predChars p ++ " AND ".toList ++ predChars q ++ ")".toList
  | .orP p q => "(".toList ++ predChars p ++ " OR ".toList ++ predChars q ++ ")".toList

def resultColumnChars : ResultColumn → Chars
  | .star => "*".toList
  | .expr p => predChars p

def commaJoin (l : List Chars) : Chars := List.intercalate ", ".toList l

/-- SQL text of a query.  Modelled from the spec: the Display
implementations live in `model/query/*.rs`, outside `src/`; each variant
renders as the usual SQL statement for its kind (§4.6 "top-level queries
render as bare `<sql>;`"). -/
def sqlOfQuery : Query → Chars
  | .create c =>
    "CREATE TABLE ".toList ++ c.table.name ++ " (".toList
    ++ commaJoin (c.table.columns.map (fun col => col.name ++ " ".toList ++ col.ctype))
    ++ ")".toList
  | .select s =>
    "SELECT ".toList
    ++ (match s.distinct with
        | Distinctness.all => []
        | Distinctness.distinct => "DISTINCT ".toList)
    ++ commaJoin (s.result_columns.map resultColumnChars)
    ++ " FROM ".toList ++ s.table ++ " WHERE ".toList ++ predChars s.predicate
    ++ (match s.limit with
        | some n => " LIMIT ".toList ++ (toString n).toList
        | none => [])
  | .insert i =>
    "INSERT INTO ".toList ++ i.table ++ " VALUES ".toList
    ++ commaJoin (i.values.map (fun r => "(".toList ++ commaJoin (r.map valueChars) ++ ")".toList))
  | .delete d =>
    "DELETE FROM ".toList ++ d.table ++ " WHERE ".toList ++ predChars d.predicate
  | .update u =>
    "UPDATE ".toList ++ u.table ++ " SET ".toList
    ++ commaJoin (u.set_cols.map (fun cv => cv.1 ++ " = ".toList ++ valueChars cv.2))
    ++ " WHERE ".toList ++ predChars u.predicate
  | .drop d => "DROP TABLE ".toList ++ d.table
  | .createIndex ci =>
    "CREATE INDEX ".toList ++ ci.index_name ++ " ON ".toList ++ ci.table
    ++ " (".toList ++ commaJoin ci.columns ++ ")".toList

/-- Display of a fault (plan.rs lines 279-286). -/
def faultChars : Fault → Chars
  | .disconnect => "DISCONNECT".toList
  | .reopenDatabase => "REOPEN_DATABASE".toList

/-- Display of an interaction (plan.rs lines 243-252). -/
def interactionChars : Interaction → Chars
  | .query q => sqlOfQuery q
  | .assumption a => "ASSUME ".toList ++ a.message
  | .assertion a => "ASSERT ".toList ++ a.message
  | .fault f => "FAULT \x27".toList ++ faultChars f ++ "\x27".toList

/-- The inner loop of `Display for InteractionPlan` (plan.rs lines
179-192): each interaction of a property is written as a tab, its
rendering, and the trailing semicolon and newline of `writeln!`. -/
def fmtInner (acc : Chars) : List Interaction → Chars
  | [] => acc
  | i :: rest =>
    let acc := acc ++ "\t".toList
    let acc :=
      match i with
      | Interaction.query q => acc ++ sqlOfQuery q ++ ";\n".toList
      | Interaction.assumption a => acc ++ "-- ASSUME ".toList ++ a.message ++ ";\n".toList
      | Interaction.assertion a => acc ++ "-- ASSERT ".toList ++ a.message ++ ";\n".toList
      | Interaction.fault f => acc ++ "-- FAULT \x27".toList ++ faultChars f ++ "\x27;\n".toList
    fmtInner acc rest

/-- The outer loop of `Display for InteractionPlan` (plan.rs lines
174-202), with `write!`/`writeln!` modelled as appends to the output
accumulator. -/
def fmtPlanAux (acc : Chars) : List Interactions → Chars
  | [] => acc
  | x :: rest =>
    let acc :=
      match x with
      | Interactions.property p =>
        let acc := acc ++ "-- begin testing \x27".toList ++ p.name ++ "\x27\n".toList
        let acc := fmtInner acc p.interactions
        acc ++ "-- end testing \x27".toList ++ p.name ++ "\x27\n".toList
      | Interactions.fault f => acc ++ "-- FAULT \x27".toList ++ faultChars f ++ "\x27\n".toList
      | Interactions.query q => acc ++ sqlOfQuery q ++ ";\n".toList
    fmtPlanAux acc rest

/-- `Display for InteractionPlan` (plan.rs lines 172-206) as the full
rendered character stream. -/
def displayPlan (p : InteractionPlan) : Chars := fmtPlanAux [] p.plan

/- Specification-side rendering for C9, phrased the way the claim is:
each top-level query is its SQL followed by a semicolon, each top-level
fault is the line `-- FAULT '<kind>'`, and each property is wrapped
between `-- begin testing '<name>'` and `-- end testing '<name>'`. -/

def specRenderInteraction : Interaction → Chars
  | .query q => "\t".toList ++ sqlOfQuery q ++ ";\n".toList
  | .assumption a => "\t-- ASSUME ".toList ++ a.message ++ ";\n".toList
  | .assertion a => "\t-- ASSERT ".toList ++ a.message ++ ";\n".toList
  | .fault f => "\t-- FAULT \x27".toList ++ faultChars f ++ "\x27;\n".toList

def specRenderItem : Interactions → Chars
  | .query q => sqlOfQuery q ++ ";\n".toList
  | .fault f => "-- FAULT \x27".toList ++ faultChars f ++ "\x27\n".toList
  | .property p =>
    "-- begin testing \x27".toList ++ p.name ++ "\x27\n".toList
    ++ (p.interactions.map specRenderInteraction).flatten
    ++ "-- end testing \x27".toList ++ p.name ++ "\x27\n".toList

theorem fmtInner_eq (l : List Interaction) (acc : Chars) :
    fmtInner acc l = acc ++ (l.map specRenderInteraction).flatten := by
  induction l generalizing acc with
  | nil => simp [fmtInner]
  | cons i rest ih =>
    cases i <;> simp [fmtInner, ih, specRenderInteraction, List.append_assoc]

theorem fmtPlanAux_eq (items : List Interactions) (acc : Chars) :
    fmtPlanAux acc items = acc ++ (items.map specRenderItem).flatten := by
  induction items generalizing acc with
  | nil => simp [fmtPlanAux]
  | cons x rest ih =>
    cases x with
    | property p =>
      simp [fmtPlanAux, ih, fmtInner_eq, specRenderItem, List.append_assoc]
    | query q => simp [fmtPlanAux, ih, specRenderItem, List.append_assoc]
    | fault f => simp [fmtPlanAux, ih, specRenderItem, List.append_assoc]

theorem displayPlan_flatten (p : InteractionPlan) :
    displayPlan p = (p.plan.map specRenderItem).flatten := by
  simpa [displayPlan] using fmtPlanAux_eq p.plan []

/-- C9: the Display rendering of a plan is exactly the concatenation, in
plan order, of: the SQL text followed by a semicolon for each top-level
query; the line `-- FAULT '<kind>'` (DISCONNECT for Disconnect,
REOPEN_DATABASE for ReopenDatabase) for each top-level fault; and, for
each property, its interactions wrapped between `-- begin testing
'<name>'` and `-- end testing '<name>'` lines. -/
theorem display_renders_plan (p : InteractionPlan) :
    displayPlan p = (p.plan.map specRenderItem).flatten :=
  displayPlan_flatten p

/- Plan diff (plan.rs lines 44-98). -/

/-- Rust `str::starts_with` on character lists: the first argument is the
pattern. -/
def isPrefixChars : Chars → Chars → Bool
  | [], _ => true
  | _ :: _, [] => false
  | a :: as, b :: bs => a == b && isPrefixChars as bs

/-- Rust `str::contains` on character lists: the second argument is the
pattern searched for. -/
def containsSub : Chars → Chars → Bool
  | [], sub => sub.isEmpty
  | c :: r, sub => isPrefixChars sub (c :: r) || containsSub r sub

/-- The line filter at plan.rs lines 64-66: `-- begin` and `-- end`
markers and empty lines are skipped. -/
def skipLine (l : Chars) : Bool :=
  isPrefixChars "-- begin".toList l || isPrefixChars "-- end".toList l || l.isEmpty

/-- Rust `str::lines`: split on `'\n'`, with no empty line produced after
a trailing newline. -/
def splitLines : Chars → List Chars
  | [] => []
  | c :: rest =>
    if c = '\n' then [] :: splitLines rest
    else
      match splitLines rest with
      | [] => [[c]]
      | l :: ls => (c :: l) :: ls

/-- The inner while loop of `compute_via_diff` (plan.rs lines 76-88):
walk the current item's interactions with cursor `k` against the text
lines.  Returns the remaining text lines, the kept interactions of the
item (a line containing an interaction's rendering advances both
cursors, otherwise the interaction is removed), and whether the text ran
out mid-item (in which case the item is truncated at `k` and all
subsequent items are dropped, per lines 77-81). -/
def diffInner : List Chars → List Interaction → List Chars × List Interaction × Bool
  | lines, [] => (lines, [], false)
  | [], _ :: _ => ([], [], true)
  | line :: rest, intr :: intrs =>
    if containsSub line (interactionChars intr) then
      let r := diffInner rest intrs
      (r.1, intr :: r.2.1, r.2.2)
    else
      diffInner (line :: rest) intrs

/-- The outer while loop of `compute_via_diff` (plan.rs lines 61-97),
taking the text lines and the expanded baseline plan: marker and empty
lines are skipped; each baseline item is matched by `diffInner`; an item
left empty is removed; when the text runs out the current item is
truncated and the remaining items are dropped (`split_off`). -/
def computeViaDiff (lines : List Chars) (plan : List (List Interaction)) :
    List (List Interaction) :=
  match lines, plan with
  | _, [] => []
  | [], _ :: _ => []
  | line :: rest, item :: items =>
    if skipLine line then computeViaDiff rest (item :: items)
    else
      let r := diffInner (line :: rest) item
      if r.2.2 then
        if r.2.1.isEmpty then [] else [r.2.1]
      else if r.2.1.isEmpty then computeViaDiff r.1 items
      else r.2.1 :: computeViaDiff r.1 items
termination_by (plan.length, lines.length)

/- Line-level view of the rendering, used to connect `displayPlan` to
`compute_via_diff`. -/

/-- The single line a property-inner interaction occupies in the
rendering (its trailing newline stripped). -/
def innerLine : Interaction → Chars
  | .query q => "\t".toList ++ sqlOfQuery q ++ ";".toList
  | .assumption a => "\t-- ASSUME ".toList ++ a.message ++ ";".toList
  | .assertion a => "\t-- ASSERT ".toList ++ a.message ++ ";".toList
  | .fault f => "\t-- FAULT \x27".toList ++ faultChars f ++ "\x27;".toList

/-- The lines a plan item occupies in the rendering. -/
def itemLines : Interactions → List Chars
  | .query q => [sqlOfQuery q ++ ";".toList]
  | .fault f => ["-- FAULT \x27".toList ++ faultChars f ++ "\x27".toList]
  | .property p =>
    ("-- begin testing \x27".toList ++ p.name ++ "\x27".toList)
    :: (p.interactions.map innerLine
        ++ [("-- end testing \x27".toList ++ p.name ++ "\x27".toList)])

/-- Join a list of lines back into a character stream, newline after each
line. -/
def linesJoin (L : List Chars) : Chars := (L.map (fun l => l ++ ['\n'])).flatten

/-- Decidable well-formedness of a plan's rendering: no rendered line
contains an embedded newline (which would break the line structure of
the `.plan` file). -/
def planLinesOk (p : InteractionPlan) : Bool :=
  ((p.plan.map itemLines).flatten).all (fun l => decide ('\n' ∉ l))

theorem isPrefixChars_append_self (p t : Chars) : isPrefixChars p (p ++ t) = true := by
  induction p with
  | nil => rfl
  | cons a as ih => simp [isPrefixChars, ih]

theorem containsSub_nil_sub (l : Chars) : containsSub l [] = true := by
  cases l <;> simp [containsSub, isPrefixChars, List.isEmpty]

theorem containsSub_of_parts (a s b : Chars) : containsSub (a ++ s ++ b) s = true := by
  induction a with
  | nil =>
    cases s with
    | nil => simpa using containsSub_nil_sub b
    | cons c s' =>
      simp only [List.nil_append, List.cons_append, containsSub]
      have : isPrefixChars (c :: s') (c :: (s' ++ b)) = true := by
        simpa using isPrefixChars_append_self (c :: s') b
      simp [this]
  | cons x a' ih =>
    simp only [List.append_assoc] at ih
    simp [containsSub, ih]

theorem splitLines_append_newline (a b : Chars) (h : '\n' ∉ a) :
    splitLines (a ++ '\n' :: b) = a :: splitLines b := by
  induction a with
  | nil => simp [splitLines]
  | cons c a' ih =>
    have hc : ¬ c = '\n' := fun e => h (by simp [e])
    have ha : '\n' ∉ a' := fun m => h (by simp [m])
    simp [splitLines, if_neg hc, ih ha]

theorem splitLines_linesJoin_append (L : List Chars) (tail : Chars)
    (h : ∀ l ∈ L, '\n' ∉ l) :
    splitLines (linesJoin L ++ tail) = L ++ splitLines tail := by
  induction L with
  | nil => simp [linesJoin]
  | cons l ls ih =>
    have h1 : '\n' ∉ l := h l (by simp)
    have h2 : ∀ x ∈ ls, '\n' ∉ x := fun x hx => h x (by simp [hx])
    have : linesJoin (l :: ls) ++ tail = l ++ '\n' :: (linesJoin ls ++ tail) := by
      simp [linesJoin, List.append_assoc]
    rw [this, splitLines_append_newline _ _ h1, ih h2]
    rfl

theorem splitLines_linesJoin (L : List Chars) (h : ∀ l ∈ L, '\n' ∉ l) :
    splitLines (linesJoin L) = L := by
  have := splitLines_linesJoin_append L [] h
  simpa [splitLines] using this

theorem linesJoin_append (A B : List Chars) :
    linesJoin (A ++ B) = linesJoin A ++ linesJoin B := by
  simp [linesJoin]

theorem specRenderInteraction_eq (i : Interaction) :
    specRenderInteraction i = innerLine i ++ ['\n'] := by
  cases i <;> simp [specRenderInteraction, innerLine, List.append_assoc]

theorem specRenderItem_eq (x : Interactions) :
    specRenderItem x = linesJoin (itemLines x) := by
  cases x with
  | query q => simp [specRenderItem, itemLines, linesJoin, List.append_assoc]
  | fault f => simp [specRenderItem, itemLines, linesJoin]
  | property p =>
    have hmap : p.interactions.map specRenderInteraction
        = p.interactions.map (fun i => innerLine i ++ ['\n']) :=
      List.map_congr_left (fun i _ => specRenderInteraction_eq i)
    simp only [specRenderItem, itemLines, linesJoin, List.map_cons, List.map_append,
      List.map_map, List.flatten_cons, List.flatten_append, hmap]
    simp [Function.comp, List.append_assoc]
    rfl

theorem flatten_specRender_eq (items : List Interactions) :
    (items.map specRenderItem).flatten = linesJoin ((items.map itemLines).flatten) := by
  induction items with
  | nil => simp [linesJoin]
  | cons x rest ih =>
    simp only [List.map_cons, List.flatten_cons, linesJoin_append, specRenderItem_eq, ih]

theorem displayPlan_eq_linesJoin (p : InteractionPlan) :
    displayPlan p = linesJoin ((p.plan.map itemLines).flatten) := by
  rw [displayPlan_flatten, flatten_specRender_eq]

theorem splitLines_displayPlan (p : InteractionPlan) (h : planLinesOk p = true) :
    splitLines (displayPlan p) = (p.plan.map itemLines).flatten := by
  rw [displayPlan_eq_linesJoin]
  apply splitLines_linesJoin
  intro l hl
  have := List.all_eq_true.mp h l hl
  simpa using this

theorem skipLine_cons_false (c : Char) (r : Chars) (h : ('-' == c) = false) :
    skipLine (c :: r) = false := by
  have e1 : ("-- begin".toList : Chars) = '-' :: "- begin".toList := rfl
  have e2 : ("-- end".toList : Chars) = '-' :: "- end".toList := rfl
  simp [skipLine, e1, e2, isPrefixChars, h]

theorem sql_head_not_dash (q : Query) :
    ∃ c r, sqlOfQuery q = c :: r ∧ ('-' == c) = false := by
  cases q with
  | create c => exact ⟨'C', _, rfl, rfl⟩
  | select s => exact ⟨'S', _, rfl, rfl⟩
  | insert i => exact ⟨'I', _, rfl, rfl⟩
  | delete d => exact ⟨'D', _, rfl, rfl⟩
  | update u => exact ⟨'U', _, rfl, rfl⟩
  | drop d => exact ⟨'D', _, rfl, rfl⟩
  | createIndex ci => exact ⟨'C', _, rfl, rfl⟩

theorem skipLine_sql (q : Query) (rest : Chars) :
    skipLine (sqlOfQuery q ++ rest) = false := by
  obtain ⟨c, r, hq, hc⟩ := sql_head_not_dash q
  rw [hq, List.cons_append]
  exact skipLine_cons_false c (r ++ rest) hc

theorem skipLine_innerLine (i : Interaction) : skipLine (innerLine i) = false := by
  cases i <;> exact skipLine_cons_false _ _ rfl

theorem skipLine_topFault (f : Fault) :
    skipLine ("-- FAULT \x27".toList ++ faultChars f ++ "\x27".toList) = false := by
  cases f <;> decide

theorem skipLine_begin (name rest : Chars) :
    skipLine ("-- begin testing \x27".toList ++ name ++ rest) = true := by
  have e : ("-- begin testing \x27".toList : Chars)
      = "-- begin".toList ++ " testing \x27".toList := rfl
  have h : isPrefixChars "-- begin".toList
      ("-- begin testing \x27".toList ++ name ++ rest) = true := by
    rw [e, List.append_assoc, List.append_assoc]
    exact isPrefixChars_append_self _ _
  unfold skipLine
  rw [h, Bool.true_or, Bool.true_or]

theorem skipLine_end (name rest : Chars) :
    skipLine ("-- end testing \x27".toList ++ name ++ rest) = true := by
  have e : ("-- end testing \x27".toList : Chars)
      = "-- end".toList ++ " testing \x27".toList := rfl
  have h : isPrefixChars "-- end".toList
      ("-- end testing \x27".toList ++ name ++ rest) = true := by
    rw [e, List.append_assoc, List.append_assoc]
    exact isPrefixChars_append_self _ _
  unfold skipLine
  rw [h, Bool.or_true, Bool.true_or]

theorem contains_innerLine (i : Interaction) :
    containsSub (innerLine i) (interactionChars i) = true := by
  cases i with
  | query q =>
    have h := containsSub_of_parts "\t".toList (sqlOfQuery q) ";".toList
    simpa [innerLine, interactionChars, List.append_assoc] using h
  | assumption a =>
    have h := containsSub_of_parts "\t-- ".toList ("ASSUME ".toList ++ a.message) ";".toList
    have e : ("\t-- ASSUME ".toList : Chars) = "\t-- ".toList ++ "ASSUME ".toList := rfl
    simp only [innerLine, interactionChars, e]
    simpa [List.append_assoc] using h
  | assertion a =>
    have h := containsSub_of_parts "\t-- ".toList ("ASSERT ".toList ++ a.message) ";".toList
    have e : ("\t-- ASSERT ".toList : Chars) = "\t-- ".toList ++ "ASSERT ".toList := rfl
    simp only [innerLine, interactionChars, e]
    simpa [List.append_assoc] using h
  | fault f =>
    have h := containsSub_of_parts "\t-- ".toList
      ("FAULT \x27".toList ++ faultChars f ++ "\x27".toList) ";".toList
    have e : ("\t-- FAULT \x27".toList : Chars) = "\t-- ".toList ++ "FAULT \x27".toList := rfl
    have e2 : ("\x27;".toList : Chars) = "\x27".toList ++ ";".toList := rfl
    simp only [innerLine, interactionChars, e, e2]
    simpa [List.append_assoc] using h

theorem contains_topQuery (q : Query) :
    containsSub (sqlOfQuery q ++ ";".toList) (interactionChars (Interaction.query q)) = true := by
  have h := containsSub_of_parts [] (sqlOfQuery q) ";".toList
  simpa [interactionChars] using h

theorem contains_topFault (f : Fault) :
    containsSub ("-- FAULT \x27".toList ++ faultChars f ++ "\x27".toList)
      (interactionChars (Interaction.fault f)) = true := by
  cases f <;> decide

theorem diffInner_cons_matched (line : Chars) (rest : List Chars)
    (intr : Interaction) (intrs : List Interaction)
    (h : containsSub line (interactionChars intr) = true) :
    diffInner (line :: rest) (intr :: intrs) =
      ((diffInner rest intrs).1, intr :: (diffInner rest intrs).2.1,
        (diffInner rest intrs).2.2) := by
  simp [diffInner, h]

theorem diffInner_matched (l : List Interaction) (extra : List Chars) :
    diffInner (l.map innerLine ++ extra) l = (extra, l, false) := by
  induction l with
  | nil => cases extra <;> simp [diffInner]
  | cons i l' ih =>
    rw [List.map_cons, List.cons_append,
      diffInner_cons_matched _ _ _ _ (contains_innerLine i), ih]

theorem interactions_ne_nil (x : Interactions) : x.interactions ≠ [] := by
  cases x with
  | property p => cases p <;> simp [Interactions.interactions, Property.interactions]
  | query q => simp [Interactions.interactions]
  | fault f => simp [Interactions.interactions]

theorem computeViaDiff_nil_plan (lines : List Chars) : computeViaDiff lines [] = [] := by
  cases lines <;> rw [computeViaDiff]

theorem computeViaDiff_cons (line : Chars) (rest : List Chars)
    (item : List Interaction) (items : List (List Interaction)) :
    computeViaDiff (line :: rest) (item :: items) =
      if skipLine line then computeViaDiff rest (item :: items)
      else
        let r := diffInner (line :: rest) item
        if r.2.2 then
          if r.2.1.isEmpty then [] else [r.2.1]
        else if r.2.1.isEmpty then computeViaDiff r.1 items
        else r.2.1 :: computeViaDiff r.1 items := by
  rw [computeViaDiff]

theorem computeViaDiff_skip (line : Chars) (rest : List Chars)
    (plan : List (List Interaction)) (h : skipLine line = true) :
    computeViaDiff (line :: rest) plan = computeViaDiff rest plan := by
  cases plan with
  | nil => rw [computeViaDiff_nil_plan, computeViaDiff_nil_plan]
  | cons item items => rw [computeViaDiff_cons, if_pos h]

/-- Round-trip core: on the unmodified rendered lines, the diff walk
keeps every interaction of every item. -/
theorem diff_of_rendered (items : List Interactions) :
    computeViaDiff ((items.map itemLines).flatten) (items.map Interactions.interactions)
      = items.map Interactions.interactions := by
  induction items with
  | nil => simpa using computeViaDiff_nil_plan []
  | cons x rest ih =>
    cases x with
    | query q =>
      simp only [List.map_cons, List.flatten_cons, itemLines, Interactions.interactions,
        List.cons_append, List.nil_append]
      rw [computeViaDiff_cons, if_neg (by simp [skipLine_sql])]
      have hbase : diffInner ((rest.map itemLines).flatten) ([] : List Interaction)
          = ((rest.map itemLines).flatten, [], false) := by
        cases h : (rest.map itemLines).flatten <;> simp [diffInner]
      rw [diffInner_cons_matched _ _ _ _ (contains_topQuery q), hbase]
      simp [ih]
    | fault f =>
      simp only [List.map_cons, List.flatten_cons, itemLines, Interactions.interactions,
        List.cons_append, List.nil_append]
      rw [computeViaDiff_cons, if_neg (by cases f <;> decide)]
      have hbase : diffInner ((rest.map itemLines).flatten) ([] : List Interaction)
          = ((rest.map itemLines).flatten, [], false) := by
        cases h : (rest.map itemLines).flatten <;> simp [diffInner]
      rw [diffInner_cons_matched _ _ _ _ (contains_topFault f), hbase]
      simp [ih]
    | property p =>
      have hne : p.interactions ≠ [] := interactions_ne_nil (Interactions.property p)
      obtain ⟨i0, l', hl⟩ : ∃ i0 l', p.interactions = i0 :: l' := by
        cases hpi : p.interactions with
        | nil => exact absurd hpi hne
        | cons a b => exact ⟨a, b, rfl⟩
      simp only [List.map_cons, List.flatten_cons, itemLines, Interactions.interactions]
      rw [List.cons_append, computeViaDiff_skip _ _ _ (skipLine_begin p.name "\x27".toList)]
      have hlines :
          ((p.interactions.map innerLine ++ ["-- end testing \x27".toList ++ p.name ++ "\x27".toList])
            ++ (rest.map itemLines).flatten)
          = p.interactions.map innerLine
            ++ (("-- end testing \x27".toList ++ p.name ++ "\x27".toList)
                :: (rest.map itemLines).flatten) := by
        simp [List.append_assoc]
      rw [hlines, hl]
      have hmatch := diffInner_matched (i0 :: l')
        (("-- end testing \x27".toList ++ p.name ++ "\x27".toList) :: (rest.map itemLines).flatten)
      rw [List.map_cons, List.cons_append] at hmatch
      rw [List.map_cons, List.cons_append, computeViaDiff_cons,
        if_neg (by simp [skipLine_innerLine])]
      simp only [hmatch]
      simp only [List.isEmpty_cons, Bool.false_eq_true, if_false]
      rw [computeViaDiff_skip _ _ _ (skipLine_end p.name "\x27".toList)]
      rw [ih]

/-- C2: running `compute_via_diff` on the unmodified text rendering of a
plan, with the plan itself (the parse of its canonical JSON
serialization) as baseline, returns exactly the expansion of the plan —
the list obtained by mapping `interactions()` over the plan's items.
The hypothesis states that no rendered line carries an embedded newline,
which is what makes the text file's lines be the rendering's lines. -/
theorem compute_via_diff_roundtrip (p : InteractionPlan) (h : planLinesOk p = true) :
    computeViaDiff (splitLines (displayPlan p)) (p.plan.map Interactions.interactions)
      = p.plan.map Interactions.interactions := by
  rw [splitLines_displayPlan p h]
  exact diff_of_rendered p.plan

/-- A small concrete plan: one property, one top-level query, one fault. -/
def planW : InteractionPlan :=
  { plan := [Interactions.property propIVS,
             Interactions.query (Query.insert insertT),
             Interactions.fault Fault.disconnect] }

theorem compute_via_diff_roundtrip_witness :
    planLinesOk planW = true ∧
    computeViaDiff (splitLines (displayPlan planW)) (planW.plan.map Interactions.interactions)
      = planW.plan.map Interactions.interactions :=
  ⟨by decide, compute_via_diff_roundtrip planW (by decide)⟩

/- C3: shrink monotonicity of the diff. -/

/-- `PlanSubseq l L` holds when `l` is obtained from `L` by deleting whole
items and deleting interactions inside the remaining items, preserving
order at both levels. -/
inductive PlanSubseq : List (List Interaction) → List (List Interaction) → Prop
  | nil : PlanSubseq [] []
  | skip (x : List Interaction) {l L : List (List Interaction)} :
      PlanSubseq l L → PlanSubseq l (x :: L)
  | keep {a x : List Interaction} {l L : List (List Interaction)} :
      List.Sublist a x → PlanSubseq l L → PlanSubseq (a :: l) (x :: L)

theorem planSubseq_nil (L : List (List Interaction)) : PlanSubseq [] L := by
  induction L with
  | nil => exact PlanSubseq.nil
  | cons x L ih => exact PlanSubseq.skip x ih

theorem diffInner_cons_unmatched (line : Chars) (rest : List Chars)
    (intr : Interaction) (intrs : List Interaction)
    (h : ¬ containsSub line (interactionChars intr) = true) :
    diffInner (line :: rest) (intr :: intrs) = diffInner (line :: rest) intrs := by
  simp [diffInner, h]

theorem diffInner_sublist (intrs : List Interaction) (lines : List Chars) :
    List.Sublist (diffInner lines intrs).2.1 intrs := by
  induction intrs generalizing lines with
  | nil => cases lines <;> simp [diffInner]
  | cons i l' ih =>
    cases lines with
    | nil => simp [diffInner]
    | cons line rest =>
      by_cases h : containsSub line (interactionChars i) = true
      · rw [diffInner_cons_matched _ _ _ _ h]
        exact List.Sublist.cons₂ i (ih rest)
      · rw [diffInner_cons_unmatched _ _ _ _ h]
        exact List.Sublist.cons i (ih (line :: rest))

theorem diffInner_lines_le (intrs : List Interaction) (lines : List Chars) :
    (diffInner lines intrs).1.length ≤ lines.length := by
  induction intrs generalizing lines with
  | nil => cases lines <;> simp [diffInner]
  | cons i l' ih =>
    cases lines with
    | nil => simp [diffInner]
    | cons line rest =>
      by_cases h : containsSub line (interactionChars i) = true
      · rw [diffInner_cons_matched _ _ _ _ h]
        exact Nat.le_trans (ih rest) (Nat.le_succ _)
      · rw [diffInner_cons_unmatched _ _ _ _ h]
        exact ih (line :: rest)

theorem computeViaDiff_subseq_aux (n : Nat) :
    ∀ (lines : List Chars) (plan : List (List Interaction)),
      lines.length + plan.length ≤ n →
      PlanSubseq (computeViaDiff lines plan) plan := by
  induction n with
  | zero =>
    intro lines plan hle
    have h1 : plan = [] := by
      cases plan with
      | nil => rfl
      | cons x L => simp only [List.length_cons] at hle; omega
    subst h1
    rw [computeViaDiff_nil_plan]
    exact PlanSubseq.nil
  | succ n ih =>
    intro lines plan hle
    cases plan with
    | nil =>
      rw [computeViaDiff_nil_plan]
      exact PlanSubseq.nil
    | cons item items =>
      cases lines with
      | nil =>
        rw [computeViaDiff]
        exact planSubseq_nil _
      | cons line rest =>
        rw [computeViaDiff_cons]
        by_cases hs : skipLine line = true
        · rw [if_pos hs]
          have : rest.length + (item :: items).length ≤ n := by
            simp only [List.length_cons] at hle ⊢
            omega
          exact ih rest (item :: items) this
        · rw [if_neg hs]
          by_cases hx : (diffInner (line :: rest) item).2.2 = true
          · rw [if_pos hx]
            by_cases he : (diffInner (line :: rest) item).2.1.isEmpty = true
            · rw [if_pos he]
              exact planSubseq_nil _
            · rw [if_neg he]
              exact PlanSubseq.keep (diffInner_sublist item (line :: rest)) (planSubseq_nil items)
          · rw [if_neg hx]
            have hlen : (diffInner (line :: rest) item).1.length + items.length ≤ n := by
              have h1 := diffInner_lines_le item (line :: rest)
              simp only [List.length_cons] at h1 hle ⊢
              omega
            by_cases he : (diffInner (line :: rest) item).2.1.isEmpty = true
            · rw [if_pos he]
              exact PlanSubseq.skip item (ih _ items hlen)
            · rw [if_neg he]
              exact PlanSubseq.keep (diffInner_sublist item (line :: rest)) (ih _ items hlen)

/-- Structural core of C3: on any text whatsoever, the diff walk can only
remove interactions inside items, drop items, and truncate the tail, so
its output is an item- and interaction-wise subsequence of the baseline. -/
theorem computeViaDiff_subseq (lines : List Chars) (plan : List (List Interaction)) :
    PlanSubseq (computeViaDiff lines plan) plan :=
  computeViaDiff_subseq_aux (lines.length + plan.length) lines plan (Nat.le_refl _)

/-- C3: for a text file obtained by deleting a strict subset of the lines
of the plan's rendering, `compute_via_diff` returns a plan that is a
subsequence of the original expanded plan, both at the item level and
within each item's interaction list — interactions are only removed or
truncated, never reordered or added. -/
theorem compute_via_diff_shrink (p : InteractionPlan) (lines : List Chars)
    (hsub : List.Sublist lines (splitLines (displayPlan p)))
    (hne : lines ≠ splitLines (displayPlan p)) :
    PlanSubseq (computeViaDiff lines (p.plan.map Interactions.interactions))
      (p.plan.map Interactions.interactions) :=
  computeViaDiff_subseq lines (p.plan.map Interactions.interactions)

theorem compute_via_diff_shrink_witness :
    List.Sublist (List.drop 1 (splitLines (displayPlan planW))) (splitLines (displayPlan planW)) ∧
    List.drop 1 (splitLines (displayPlan planW)) ≠ splitLines (displayPlan planW) ∧
    PlanSubseq
      (computeViaDiff (List.drop 1 (splitLines (displayPlan planW)))
        (planW.plan.map Interactions.interactions))
      (planW.plan.map Interactions.interactions) :=
  ⟨List.drop_sublist 1 _, by decide,
    compute_via_diff_shrink planW _ (List.drop_sublist 1 _) (by decide)⟩

/- Plan generation (plan.rs lines 472-500). -/

/-- Randomness oracle for `InteractionPlan::arbitrary_from`: `createQ`
stands for the `Create::arbitrary(rng)` draw, and `next` for the
`Interactions::arbitrary_from(rng, (env, stats))` draw of each loop
iteration, indexed by the rng's position (the loop count).  Modelled from
the spec: the `Arbitrary` implementations drawn from live outside
`src/`; plan.rs only sequences them. -/
structure GenOracle where
  createQ : Create
  next : Nat → SimulatorEnv → InteractionStats → Interactions

def statsOfList (items : List Interactions) : InteractionStats :=
  items.foldl statsItem zeroStats

/-- The while loop of `arbitrary_from` (plan.rs lines 485-495): while the
plan is shorter than `max_interactions`, draw an item from the stats-fed
oracle, shadow it into the environment, and append it.  The fuel is the
number of missing items, which decreases by one per iteration exactly as
the loop guard does. -/
def planLoop (g : GenOracle) : Nat → List Interactions → SimulatorEnv →
    List Interactions × SimulatorEnv
  | 0, items, env => (items, env)
  | fuel + 1, items, env =>
    let x := g.next items.length env (statsOfList items)
    let env := x.shadow env
    planLoop g fuel (items ++ [x]) env

/-- `InteractionPlan::arbitrary_from` (plan.rs lines 472-500): first draw
a `Create`, push its table into `env.tables` and the query onto the plan,
then loop until the plan holds `max_interactions` items. -/
def arbitrary_from_plan (g : GenOracle) (env : SimulatorEnv) :
    List Interactions × SimulatorEnv :=
  let env1 := { env with tables := env.tables ++ [g.createQ.table] }
  planLoop g (env.opts.max_interactions - 1)
    [Interactions.query (Query.create g.createQ)] env1

theorem planLoop_length (g : GenOracle) (fuel : Nat) :
    ∀ (items : List Interactions) (env : SimulatorEnv),
      (planLoop g fuel items env).1.length = items.length + fuel := by
  induction fuel with
  | zero => intro items env; simp [planLoop]
  | succ n ih =>
    intro items env
    simp only [planLoop]
    rw [ih]
    simp only [List.length_append, List.length_cons, List.length_nil]
    omega

theorem planLoop_head (g : GenOracle) (fuel : Nat) :
    ∀ (x : Interactions) (items : List Interactions) (env : SimulatorEnv),
      (planLoop g fuel (x :: items) env).1.head? = some x := by
  induction fuel with
  | zero => intro x items env; simp [planLoop]
  | succ n ih =>
    intro x items env
    simp only [planLoop, List.cons_append]
    exact ih x _ _

/-- C4: for every randomness oracle and every environment whose
`max_interactions` is at least one, the generated plan's first item is
the top-level `Query(Create(..))` drawn first, the environment after that
first step has a non-empty table catalog (the created table was pushed),
and the plan holds exactly `max_interactions` items. -/
theorem arbitrary_from_shape (g : GenOracle) (env : SimulatorEnv)
    (h : 1 ≤ env.opts.max_interactions) :
    (arbitrary_from_plan g env).1.head?
        = some (Interactions.query (Query.create g.createQ)) ∧
    ({ env with tables := env.tables ++ [g.createQ.table] } : SimulatorEnv).tables ≠ [] ∧
    (arbitrary_from_plan g env).1.length = env.opts.max_interactions := by
  refine ⟨?_, ?_, ?_⟩
  · exact planLoop_head g _ _ [] _
  · simp
  · rw [arbitrary_from_plan]
    rw [planLoop_length]
    simp only [List.length_cons, List.length_nil]
    omega

def oracleW : GenOracle :=
  { createQ := { table := tableT },
    next := fun _ _ _ => Interactions.query (Query.insert insertT) }

theorem arbitrary_from_shape_witness :
    1 ≤ envT.opts.max_interactions ∧
    (arbitrary_from_plan oracleW envT).1.head?
        = some (Interactions.query (Query.create oracleW.createQ)) ∧
    ({ envT with tables := envT.tables ++ [oracleW.createQ.table] } : SimulatorEnv).tables ≠ [] ∧
    (arbitrary_from_plan oracleW envT).1.length = envT.opts.max_interactions :=
  ⟨by decide, arbitrary_from_shape oracleW envT (by decide)⟩

/- Query execution (plan.rs lines 509-552). -/

/-- One result of `rows.step()` as seen by the `execute_query` loop
(spec §6: `StepResult { Row, IO, Interrupt, Done, Busy }`, plus the
`Err` outcome of the fallible `step` call itself). -/
inductive StepR
  | row (r : List SimValue)
  | ioStep
  | interrupt
  | done
  | busy
  | stepErr (e : Chars)

/-- The `while let Ok(row) = rows.step()` loop of `execute_query`
(plan.rs lines 526-546), with the engine modelled as the trace of its
step results and `io.run_once()` as a list of outcomes consumed by IO
steps.  `none` models a panic (`unwrap` of a failed `run_once`); a
failed `step` exits the loop, so the rows collected so far are returned
as `Ok`.  An exhausted trace or io oracle is treated as completion and
success respectively (the engine would keep answering). -/
def collectRows (ios : List (Except Chars Unit)) (trace : List StepR)
    (out : List (List SimValue)) : Option (Except Chars (List (List SimValue))) :=
  match trace with
  | [] => some (Except.ok out)
  | StepR.row r :: rest => collectRows ios rest (out ++ [r])
  | StepR.ioStep :: rest =>
    match ios with
    | [] => collectRows [] rest out
    | Except.ok _ :: ios2 => collectRows ios2 rest out
    | Except.error _ :: _ => none
  | StepR.interrupt :: rest => collectRows ios rest out
  | StepR.done :: _ => some (Except.ok out)
  | StepR.busy :: rest => collectRows ios rest out
  | StepR.stepErr _ :: _ => some (Except.ok out)

/-- `Interaction::execute_query` on a query interaction (plan.rs lines
509-552): a failed `conn.query` is returned as the `Err` of the
`ResultSet`; a `None` row stream panics on the `assert!` (modelled as
`none`); otherwise the step loop runs. -/
def execute_query (queryResult : Except Chars (Option (List StepR)))
    (ios : List (Except Chars Unit)) : Option (Except Chars (List (List SimValue))) :=
  match queryResult with
  | Except.error e => some (Except.error e)
  | Except.ok none => none
  | Except.ok (some trace) => collectRows ios trace []

/-- Rows of a step trace up to its first terminating event: `Done` ends
collection, and so does an `Err` from `step` (dropping the error). -/
def rowsUpto : List StepR → List (List SimValue)
  | [] => []
  | StepR.row r :: rest => r :: rowsUpto rest
  | StepR.done :: _ => []
  | StepR.stepErr _ :: _ => []
  | StepR.ioStep :: rest => rowsUpto rest
  | StepR.interrupt :: rest => rowsUpto rest
  | StepR.busy :: rest => rowsUpto rest

def isErrResult (r : Option (Except Chars (List (List SimValue)))) : Bool :=
  match r with
  | some (Except.error _) => true
  | _ => false

/-- C6 counterexample: an engine error arising from `rows.step()` during
`execute_query` is not captured as an `Err` `ResultSet` — the
`while let Ok(row)` loop simply exits and the rows collected so far are
returned as `Ok`.  Here the stream yields one row and then a step error,
and `execute_query` returns `Ok [[7]]`, not an `Err`. -/
theorem execute_query_step_error_is_ok :
    execute_query (Except.ok (some [StepR.row [SimValue.integer 7],
      StepR.stepErr "disk error".toList])) [] = some (Except.ok [[SimValue.integer 7]]) ∧
    isErrResult (execute_query (Except.ok (some [StepR.row [SimValue.integer 7],
      StepR.stepErr "disk error".toList])) []) = false :=
  ⟨rfl, rfl⟩

def allOkRunOnce (ios : List (Except Chars Unit)) : Bool :=
  ios.all (fun e =>
    match e with
    | Except.ok _ => true
    | Except.error _ => false)

theorem collectRows_ok (trace : List StepR) :
    ∀ (ios : List (Except Chars Unit)) (out : List (List SimValue)),
      allOkRunOnce ios = true →
      collectRows ios trace out = some (Except.ok (out ++ rowsUpto trace)) := by
  induction trace with
  | nil => intro ios out h; simp [collectRows, rowsUpto]
  | cons s rest ih =>
    intro ios out h
    cases s with
    | row r => simp [collectRows, rowsUpto, ih ios _ h]
    | ioStep =>
      cases ios with
      | nil => simp [collectRows, rowsUpto, ih [] out rfl]
      | cons e ios2 =>
        cases e with
        | ok u =>
          have h2 : allOkRunOnce ios2 = true := by
            simpa [allOkRunOnce] using (List.all_eq_true.mp h)
              |> fun hh => List.all_eq_true.mpr (fun x hx => hh x (by simp [hx]))
          simp [collectRows, rowsUpto, ih ios2 out h2]
        | error e => simp [allOkRunOnce] at h
    | interrupt => simp [collectRows, rowsUpto, ih ios out h]
    | done => simp [collectRows, rowsUpto]
    | busy => simp [collectRows, rowsUpto, ih ios out h]
    | stepErr e => simp [collectRows, rowsUpto]

/-- C6 amended: errors of `conn.query` are captured into the returned
`ResultSet` as its `Err`; a successful query collects rows in order and
returns them as `Ok`, with IO step results driving one `io.run_once()`
each and the loop retrying, and Busy and Interrupt step results
retrying; an error returned by `rows.step()` however merely ends
collection, so the rows gathered before it come back as `Ok`. -/
theorem execute_query_amended (ios : List (Except Chars Unit))
    (h : allOkRunOnce ios = true) :
    (∀ e, execute_query (Except.error e) ios = some (Except.error e)) ∧
    (∀ trace, execute_query (Except.ok (some trace)) ios
        = some (Except.ok (rowsUpto trace))) := by
  constructor
  · intro e; rfl
  · intro trace
    have := collectRows_ok trace ios [] h
    simpa [execute_query] using this

theorem execute_query_amended_witness :
    allOkRunOnce [Except.ok ()] = true ∧
    ((∀ e, execute_query (Except.error e) [Except.ok ()] = some (Except.error e)) ∧
     (∀ trace, execute_query (Except.ok (some trace)) [Except.ok ()]
        = some (Except.ok (rowsUpto trace)))) :=
  ⟨rfl, execute_query_amended [Except.ok ()] rfl⟩

/- Fault execution (plan.rs lines 616-669). -/

/-- `Interaction::execute_fault` on a fault (plan.rs lines 627-667).
Disconnect: when the selected connection is live it is disconnected and
the slot overwritten with `Disconnected`, otherwise an "already
disconnected" error is returned and the environment left unchanged.
ReopenDatabase: all connections are dropped, the database handle is
replaced (a reopen failure panics in the source, so the model reopens
with a fresh handle id), and as many fresh connections as before are
reconnected.  An out-of-bounds index panics in the source; the model
returns the environment unchanged with an error. -/
def execute_fault (f : Fault) (env : SimulatorEnv) (conn_index : Nat) :
    Except Chars Unit × SimulatorEnv :=
  match f with
  | Fault.disconnect =>
    if h : conn_index < env.connections.length then
      if (env.connections.get ⟨conn_index, h⟩).is_connected then
        (Except.ok (),
          { env with connections := env.connections.set conn_index SimConnection.disconnected })
      else
        (Except.error "connection already disconnected".toList, env)
    else
      (Except.error "connection index out of bounds".toList, env)
  | Fault.reopenDatabase =>
    let num_conns := env.connections.length
    let newDb := env.db + 1
    (Except.ok (),
      { env with db := newDb,
                 connections := List.replicate num_conns (SimConnection.limboConnection newDb) })

/-- C7: executing a Disconnect fault succeeds and overwrites the selected
slot with `Disconnected` exactly when that connection is currently
connected; when it is already disconnected, an error is returned (no
panic) and the connection vector is left unchanged. -/
theorem execute_fault_disconnect (env : SimulatorEnv) (i : Nat)
    (h : i < env.connections.length) :
    ((env.connections.get ⟨i, h⟩).is_connected = true →
      execute_fault Fault.disconnect env i =
        (Except.ok (),
          { env with connections := env.connections.set i SimConnection.disconnected })) ∧
    ((env.connections.get ⟨i, h⟩).is_connected = false →
      execute_fault Fault.disconnect env i =
        (Except.error "connection already disconnected".toList, env)) := by
  constructor
  · intro hc
    simp only [List.get_eq_getElem] at hc
    simp [execute_fault, h, hc]
  · intro hc
    simp only [List.get_eq_getElem] at hc
    simp [execute_fault, h, hc]

def envConnW : SimulatorEnv :=
  { envT with connections := [SimConnection.limboConnection 0, SimConnection.disconnected] }

theorem execute_fault_disconnect_witness :
    0 < envConnW.connections.length ∧
    (execute_fault Fault.disconnect envConnW 0 =
      (Except.ok (),
        { envConnW with
            connections := envConnW.connections.set 0 SimConnection.disconnected })) :=
  ⟨by decide, (execute_fault_disconnect envConnW 0 (by decide)).1 (by decide)⟩

/-- C8: executing either fault preserves the number of connection slots:
Disconnect overwrites one slot in place (or fails leaving the vector
unchanged), and ReopenDatabase tears all connections down and reconnects
exactly as many fresh ones as existed before. -/
theorem execute_fault_preserves_connections (f : Fault) (env : SimulatorEnv) (i : Nat)
    (h : i < env.connections.length) :
    ((execute_fault f env i).2).connections.length = env.connections.length := by
  cases f with
  | disconnect =>
    by_cases hc : env.connections[i].is_connected = true
    · simp [execute_fault, h, hc]
    · simp [execute_fault, h, hc]
  | reopenDatabase => simp [execute_fault]

theorem execute_fault_preserves_connections_witness :
    0 < envConnW.connections.length ∧
    ((execute_fault Fault.reopenDatabase envConnW 0).2).connections.length
      = envConnW.connections.length :=
  ⟨by decide, execute_fault_preserves_connections Fault.reopenDatabase envConnW 0 (by decide)⟩

/- Fault generation (plan.rs lines 705-713). -/

/-- `random_fault` (plan.rs lines 705-713): build the candidate fault
list — only Disconnect when `disable_reopen_database` is set, both
faults otherwise — and index it by a uniform draw below its length.  The
rng draw is modelled by an arbitrary natural reduced modulo the list
length, which ranges over exactly the values `gen_range(0..len)` can
produce. -/
def random_fault (r : Nat) (env : SimulatorEnv) : Interactions :=
  let faults :=
    if env.opts.disable_reopen_database then [Fault.disconnect]
    else [Fault.disconnect, Fault.reopenDatabase]
  Interactions.fault (faults.getD (r % faults.length) Fault.disconnect)

/-- C10: whenever `disable_reopen_database` is set, `random_fault`
returns a Disconnect fault no matter what the rng draws, so generated
plans never contain a ReopenDatabase fault under that option. -/
theorem random_fault_disable_reopen (r : Nat) (env : SimulatorEnv)
    (h : env.opts.disable_reopen_database = true) :
    random_fault r env = Interactions.fault Fault.disconnect := by
  simp [random_fault, h]

theorem random_fault_disable_reopen_witness :
    ({ envT with opts := { envT.opts with disable_reopen_database := true } }
        : SimulatorEnv).opts.disable_reopen_database = true ∧
    random_fault 7 { envT with opts := { envT.opts with disable_reopen_database := true } }
      = Interactions.fault Fault.disconnect :=
  ⟨rfl, random_fault_disable_reopen 7 _ rfl⟩

end Sim
